import Mathlib

/-!
Shallow embedding of the codotaku-engine-rs frame presentation engine.

Sources embedded here:
- src/src/core/swapchain_target.rs (vulkano path): SwapchainTarget with its
  try_acquire_image and present methods. GPU handles (futures, surfaces) carry
  no observable state for the verified claims and are omitted; the outcomes of
  the external vulkano calls (acquire_next_image, the flush of the present
  future) are passed in as explicit environment inputs.
- src/src/graphics/windows.rs: the Windows manager. Rust HashMaps are embedded
  as association lists with HashMap-equivalent key semantics.
- src/src/main.rs (ash path): Renderer::render. Vulkan handles (fences,
  semaphores, command buffers) live in per-slot vectors of length 2 in the
  source, so they are identified here by their slot index; swapchain images by
  their image index. The render pass is embedded as a function that also emits
  the ordered trace of driver calls it makes, so that synchronization claims
  can be stated over the trace.
-/

namespace Engine

/-! ### Association-list maps (embedding of std::collections::HashMap) -/

/-- Lookup of the value stored for a key, first match. Mirrors HashMap::get. -/
def lookupKey {α : Type} : List (Nat × α) → Nat → Option α
  | [], _ => none
  | p :: ps, k => if p.1 = k then some p.2 else lookupKey ps k

/-- Removal of every entry with the given key. Mirrors HashMap::remove. -/
def eraseKey {α : Type} : List (Nat × α) → Nat → List (Nat × α)
  | [], _ => []
  | p :: ps, k => if p.1 = k then eraseKey ps k else p :: eraseKey ps k

/-- Insertion that replaces any previous entry. Mirrors HashMap::insert. -/
def insertKey {α : Type} (l : List (Nat × α)) (k : Nat) (v : α) : List (Nat × α) :=
  (k, v) :: eraseKey l k

/-- Keys are pairwise distinct, as they always are in a HashMap. -/
abbrev keysNodup {α : Type} (l : List (Nat × α)) : Prop :=
  (l.map Prod.fst).Nodup

/-! ### SwapchainTarget (src/src/core/swapchain_target.rs) -/

/-- One presentable swapchain image; only its pixel extent is observable. -/
structure SCImage where
  extent : Nat × Nat
deriving DecidableEq

/-- The swapchain object; of its create-info only image_extent is observable
(recreation copies every other field unchanged). -/
structure Swapchain where
  imageExtent : Nat × Nat
deriving DecidableEq

/-- State of SwapchainTarget: the recreate_swapchain dirty flag, the swapchain
and its image list. The previous_frame_end GPU future is opaque and omitted. -/
structure SwapchainTarget where
  recreate_swapchain : Bool
  swapchain : Swapchain
  swapchain_images : List SCImage
deriving DecidableEq

/-- The Acquired value returned by try_acquire_image: the image and its index.
The acquire_future is opaque and omitted. -/
structure Acquired where
  image : SCImage
  image_index : Nat
deriving DecidableEq

/-- Outcome of the external vulkano acquire_next_image call, as matched by the
source: Ok((index, suboptimal)), Err(OutOfDate), or any other error code. -/
inductive AcquireOutcome where
  | ok (imageIndex : Nat) (suboptimal : Bool)
  | outOfDate
  | err (code : Nat)
deriving DecidableEq

/-- SwapchainTarget::new: a freshly built target for a surface of the given
extent; the driver chooses the image count n. recreate_swapchain starts false. -/
def SwapchainTarget.new (extent : Nat × Nat) (n : Nat) : SwapchainTarget :=
  { recreate_swapchain := false
    swapchain := { imageExtent := extent }
    swapchain_images := List.replicate n { extent := extent } }

/-- Lines 59-68 of try_acquire_image: if the dirty flag is set, recreate the
swapchain at the current window size (image list refreshed at that size, count
preserved) and clear the flag; otherwise leave the state untouched. -/
def resolveDirty (st : SwapchainTarget) (windowSize : Nat × Nat) : SwapchainTarget :=
  if st.recreate_swapchain then
    { recreate_swapchain := false
      swapchain := { imageExtent := windowSize }
      swapchain_images := List.replicate st.swapchain_images.length { extent := windowSize } }
  else st

/-- Total indexing used for swapchain_images[image_index]; every claim that
inspects the image supplies an in-range index. -/
def listGetD {α : Type} (l : List α) (i : Nat) (d : α) : α :=
  (l.get? i).getD d

/-- SwapchainTarget::try_acquire_image. Returns the updated state and either
some acquired image or none; Except.error is an anyhow error surfaced to the
caller. The acquire outcome is the environment input. -/
def tryAcquireImage (st : SwapchainTarget) (windowSize : Nat × Nat)
    (acq : AcquireOutcome) : Except Nat (SwapchainTarget × Option Acquired) :=
  if windowSize.1 = 0 ∨ windowSize.2 = 0 then
    .ok (st, none)
  else
    let st1 := resolveDirty st windowSize
    match acq with
    | .outOfDate => .ok ({ st1 with recreate_swapchain := true }, none)
    | .err e => .error e
    | .ok idx sub =>
      let st2 := if sub then { st1 with recreate_swapchain := true } else st1
      .ok (st2, some { image := listGetD st2.swapchain_images idx { extent := (0, 0) }
                       image_index := idx })

/-- Outcome of flushing the present future, as matched by the source: Ok,
Err(OutOfDate) (the recoverable suboptimal/out-of-date presentation signal),
or any other error code. -/
inductive FlushOutcome where
  | ok
  | outOfDate
  | err (code : Nat)
deriving DecidableEq

/-- SwapchainTarget::present. The acquired image and command buffer only feed
the GPU future, which is opaque; the observable effect is on the dirty flag
and the returned Result. -/
def SwapchainTarget.present (st : SwapchainTarget) (flush : FlushOutcome) :
    Except Nat (SwapchainTarget × Bool) :=
  match flush with
  | .ok => .ok (st, true)
  | .outOfDate => .ok ({ st with recreate_swapchain := true }, true)
  | .err e => .error e

/-- SwapchainTarget::resize: just sets the dirty flag. -/
def SwapchainTarget.resize (st : SwapchainTarget) : SwapchainTarget :=
  { st with recreate_swapchain := true }

/-! ### Windows manager (src/src/graphics/windows.rs) -/

/-- The winit window handle; its only state read by windows.rs is inner_size. -/
structure WinitWindow where
  size : Nat × Nat
deriving DecidableEq

/-- The Windows manager: the three HashMaps of the source struct. The shared
gpu handle carries no observable state and is omitted. Window ids are Nat. -/
structure Windows where
  children : List (Nat × List Nat)
  swapchain_targets : List (Nat × SwapchainTarget)
  windows : List (Nat × WinitWindow)
deriving DecidableEq

/-- Windows::add: the event loop hands back a fresh window (its id and inner
size are inputs here), a SwapchainTarget is built for it with driver-chosen
image count n, and both maps record it under the id. -/
def Windows.add (w : Windows) (id : Nat) (win : WinitWindow) (n : Nat) : Windows :=
  { w with windows := insertKey w.windows id win
           swapchain_targets :=
             insertKey w.swapchain_targets id (SwapchainTarget.new win.size n) }

/-- Windows::remove, in worklist form; the second component is the ordered
trace of ids actually erased. Processing an id erases it from the windows and
swapchain_targets maps first, then removes its children entry (if any) and
pushes the recorded children at the front of the worklist, which is exactly
the depth-first order of the recursive source function. Termination: each step
either consumes a children entry or shortens the worklist. -/
def Windows.removeWork : Windows → List Nat → Windows × List Nat
  | w, [] => (w, [])
  | w, id :: rest =>
    let w1 : Windows :=
      { w with windows := eraseKey w.windows id
               swapchain_targets := eraseKey w.swapchain_targets id }
    match h : lookupKey w.children id with
    | none =>
      let p := Windows.removeWork w1 rest
      (p.1, id :: p.2)
    | some cs =>
      let w2 : Windows := { w1 with children := eraseKey w.children id }
      let p := Windows.removeWork w2 (cs ++ rest)
      (p.1, id :: p.2)
termination_by w ids => (w.children.length, ids.length)
decreasing_by
  · apply Prod.Lex.right
    simp only [List.length_cons]
    omega
  · apply Prod.Lex.left
    have hle : ∀ (l : List (Nat × List Nat)) (k : Nat),
        (eraseKey l k).length ≤ l.length := by
      intro l k
      induction l with
      | nil => simp [eraseKey]
      | cons q qs ih =>
        by_cases hq : q.1 = k
        · simp only [eraseKey, if_pos hq]
          have h2 : (q :: qs).length = qs.length + 1 := rfl
          omega
        · simp only [eraseKey, if_neg hq, List.length_cons]
          omega
    have hlt : ∀ (l : List (Nat × List Nat)) (k : Nat) (v : List Nat),
        lookupKey l k = some v → (eraseKey l k).length < l.length := by
      intro l
      induction l with
      | nil => intro k v hv; simp [lookupKey] at hv
      | cons q qs ih =>
        intro k v hv
        by_cases hq : q.1 = k
        · simp only [eraseKey, if_pos hq]
          have h1 := hle qs k
          have h2 : (q :: qs).length = qs.length + 1 := rfl
          omega
        · simp only [lookupKey, if_neg hq] at hv
          simp only [eraseKey, if_neg hq, List.length_cons]
          exact Nat.succ_lt_succ (ih k v hv)
    exact hlt w.children id cs h

/-- Windows::remove(id): final state. -/
def Windows.remove (w : Windows) (id : Nat) : Windows :=
  (Windows.removeWork w [id]).1

/-- Windows::remove(id): the ids erased, in erasure order. -/
def Windows.removeTrace (w : Windows) (id : Nat) : List Nat :=
  (Windows.removeWork w [id]).2

/-- The state after erasing id from the windows and swapchain_targets maps
(the first two lines of Windows::remove). -/
def eraseBoth (w : Windows) (id : Nat) : Windows :=
  { w with windows := eraseKey w.windows id
           swapchain_targets := eraseKey w.swapchain_targets id }

/-- The state after additionally consuming the children entry of id. -/
def eraseAll (w : Windows) (id : Nat) : Windows :=
  { children := eraseKey w.children id
    swapchain_targets := eraseKey w.swapchain_targets id
    windows := eraseKey w.windows id }

/-- Windows::add_child: push the child id onto the parent's recorded list,
creating the entry if absent. -/
def Windows.addChild (w : Windows) (parent child : Nat) : Windows :=
  match lookupKey w.children parent with
  | some cs => { w with children := insertKey w.children parent (cs ++ [child]) }
  | none => { w with children := insertKey w.children parent [child] }

/-- Windows::remove_child: drop the child id from the parent's list, erasing
the entry when it becomes empty. -/
def Windows.removeChild (w : Windows) (parent child : Nat) : Windows :=
  match lookupKey w.children parent with
  | some cs =>
    let cs' := cs.filter (fun c => c ≠ child)
    if cs'.isEmpty then { w with children := eraseKey w.children parent }
    else { w with children := insertKey w.children parent cs' }
  | none => w

/-- Windows::can_close: false as soon as one recorded child is still present
in the live windows map; true otherwise (also when no children are recorded). -/
def Windows.canClose (w : Windows) (id : Nat) : Bool :=
  match lookupKey w.children id with
  | some cs => !cs.any (fun c => (lookupKey w.windows c).isSome)
  | none => true

/-- The recorded-children list of an id, empty when no entry exists. -/
def Windows.recordedChildren (w : Windows) (id : Nat) : List Nat :=
  (lookupKey w.children id).getD []

/-- Windows::len: number of live windows. -/
def Windows.len (w : Windows) : Nat :=
  w.windows.length

/-- Windows::suspend: drop every swapchain target. -/
def Windows.suspend (w : Windows) : Windows :=
  { w with swapchain_targets := [] }

/-- Windows::resume: rebuild a fresh SwapchainTarget for every live window at
its current inner size (driver-chosen image count n), inserting it into the
swapchain_targets map. -/
def Windows.resume (w : Windows) (n : Nat) : Windows :=
  let ts := w.windows.foldl
    (fun ts p => insertKey ts p.1 (SwapchainTarget.new p.2.size n))
    w.swapchain_targets
  { w with swapchain_targets := ts }

/-- Invariant of claim C10: every id holding a swapchain target is live. -/
def coveredBy (targets : List (Nat × SwapchainTarget))
    (windows : List (Nat × WinitWindow)) : Bool :=
  targets.all (fun p => (lookupKey windows p.1).isSome)

/-- The C10 invariant on a whole Windows value. -/
def targetsCovered (w : Windows) : Bool :=
  coveredBy w.swapchain_targets w.windows

/-! ### Renderer (src/src/main.rs, ash path)

The Renderer struct owns per-slot vectors of length 2 (command_buffers,
image_acquired_semaphores, render_finished_semaphores, fences) and a
frame_index cycling modulo 2. Handles are identified by their slot index,
swapchain images by their image index. -/

/-- One driver call issued by Renderer::render, in program order. Fence,
semaphore and command-buffer arguments are slot indices; image arguments are
swapchain image indices. -/
inductive SyncEvent where
  | waitFence (fence : Nat)
  | acquireImage (image : Nat) (signalSemaphore : Nat) (signalFence : Nat)
  | resetFence (fence : Nat)
  | clearImage (image : Nat) (commandBuffer : Nat)
  | submit (commandBuffer : Nat) (waitSemaphore : Nat) (signalSemaphore : Nat)
      (signalFence : Nat)
  | presentImage (image : Nat) (waitSemaphore : Nat)
deriving DecidableEq

/-- Result of one fallible driver call that returns no data. -/
inductive StepResult where
  | ok
  | err (code : Nat)
deriving DecidableEq

/-- Equality of Except values is decidable when it is on both sides. -/
instance exceptDecEq {ε α : Type} [DecidableEq ε] [DecidableEq α] :
    DecidableEq (Except ε α)
  | .error x, .error y =>
    if h : x = y then .isTrue (by rw [h])
    else .isFalse (by intro hc; cases hc; exact h rfl)
  | .error _, .ok _ => .isFalse (by intro hc; cases hc)
  | .ok _, .error _ => .isFalse (by intro hc; cases hc)
  | .ok x, .ok y =>
    if h : x = y then .isTrue (by rw [h])
    else .isFalse (by intro hc; cases hc; exact h rfl)

/-- Environment of one Renderer::render call: the outcome of each fallible
driver call it makes, in program order. recordOutcome covers the command
buffer reset/begin/record/end block. The acquire outcome carries the image
index and the suboptimal flag on success. -/
structure RenderEnv where
  waitOutcome : StepResult
  acquireOutcome : Except Nat (Nat × Bool)
  resetOutcome : StepResult
  recordOutcome : StepResult
  submitOutcome : StepResult
  presentOutcome : Except Nat Bool
deriving DecidableEq

/-- Renderer state observable by the verified claims: the frame slot index.
The handle vectors are fixed at construction (two slots). -/
structure AshRenderer where
  frame_index : Nat
deriving DecidableEq

/-- Renderer::render. Returns the post state, the ordered trace of driver
calls made, and the propagated result. Every fallible step exits early with
the question-mark operator, so the frame index is advanced only on the
all-success path, after present. -/
def AshRenderer.render (r : AshRenderer) (env : RenderEnv) :
    AshRenderer × List SyncEvent × Except Nat Unit :=
  let i := r.frame_index
  match env.waitOutcome with
  | .err e => (r, [.waitFence i], .error e)
  | .ok =>
    match env.acquireOutcome with
    | .error e => (r, [.waitFence i], .error e)
    | .ok (k, _suboptimal) =>
      match env.resetOutcome with
      | .err e => (r, [.waitFence i, .acquireImage k i i], .error e)
      | .ok =>
        match env.recordOutcome with
        | .err e => (r, [.waitFence i, .acquireImage k i i, .resetFence i], .error e)
        | .ok =>
          match env.submitOutcome with
          | .err e =>
            (r, [.waitFence i, .acquireImage k i i, .resetFence i, .clearImage k i],
              .error e)
          | .ok =>
            match env.presentOutcome with
            | .error e =>
              (r, [.waitFence i, .acquireImage k i i, .resetFence i, .clearImage k i,
                    .submit i i i i], .error e)
            | .ok _sub =>
              ({ frame_index := (i + 1) % 2 },
                [.waitFence i, .acquireImage k i i, .resetFence i, .clearImage k i,
                  .submit i i i i, .presentImage k i], .ok ())

/-- Run Renderer::render over a list of per-call environments, collecting the
trace of each call. -/
def renderRun : AshRenderer → List RenderEnv → AshRenderer × List (List SyncEvent)
  | r, [] => (r, [])
  | r, env :: rest =>
    let s := r.render env
    let t := renderRun s.1 rest
    (t.1, s.2.1 :: t.2)

/-- Fences waited on during one render call, in order. -/
def traceWaits (tr : List SyncEvent) : List Nat :=
  tr.filterMap (fun e => match e with | .waitFence f => some f | _ => none)

/-- The image index acquired during one render call, if any. -/
def traceAcquired (tr : List SyncEvent) : Option Nat :=
  tr.findSome? (fun e => match e with | .acquireImage k _ _ => some k | _ => none)

/-- The fence signalled by the queue submit of one render call, if any. -/
def traceSubmitFence (tr : List SyncEvent) : Option Nat :=
  tr.findSome? (fun e => match e with | .submit _ _ _ f => some f | _ => none)

/-- The per-image fence-table discipline claimed by the spec, read over the
traces of successive render calls: a table maps each image index to the fence
of the slot that last rendered into it; a call that acquires image k must wait
on the fence recorded for k (when one is recorded) and then record its own
submit fence as the new owner of k. -/
def fenceTableCheck : List (Nat × Nat) → List (List SyncEvent) → Bool
  | _, [] => true
  | table, tr :: rest =>
    match traceAcquired tr with
    | none => fenceTableCheck table rest
    | some k =>
      let okHere := match lookupKey table k with
        | none => true
        | some f => (traceWaits tr).contains f
      let table' := match traceSubmitFence tr with
        | some f => insertKey table k f
        | none => table
      okHere && fenceTableCheck table' rest

/-! ### Claim statements taken verbatim from the spec (for refutation) -/

/-- Claim C1 as stated: whenever the swapchain is dirty, try_acquire_image
returns no image for that call (rebuild passes and acquired images are never
combined). -/
def claimC1 : Prop :=
  ∀ (st : SwapchainTarget) (ws : Nat × Nat) (acq : AcquireOutcome)
    (st' : SwapchainTarget) (res : Option Acquired),
    st.recreate_swapchain = true → ws.1 ≠ 0 → ws.2 ≠ 0 →
    tryAcquireImage st ws acq = .ok (st', res) → res = none

/-- Claim C2 as stated: every sequence of render calls obeys the per-image
fence-table discipline. -/
def claimC2 : Prop :=
  ∀ (r : AshRenderer) (envs : List RenderEnv),
    fenceTableCheck [] (renderRun r envs).2 = true

/-- Claim C3 as stated: removing a window whose recorded children are all live
removes the children first and the window last, and drops the live count by
exactly the number of children plus one. -/
def claimC3 : Prop :=
  ∀ (w : Windows) (p : Nat) (cs : List Nat),
    lookupKey w.children p = some cs →
    (lookupKey w.windows p).isSome = true →
    (∀ c ∈ cs, (lookupKey w.windows c).isSome = true) →
    (w.remove p).windows.length + (cs.length + 1) = w.windows.length ∧
    (w.removeTrace p).getLast? = some p

/-! ### Concrete inputs used by counterexamples and witnesses -/

/-- A dirty 800 by 600 target with three images, as in the spec scenario. -/
def stDirty : SwapchainTarget :=
  { recreate_swapchain := true
    swapchain := { imageExtent := (800, 600) }
    swapchain_images := List.replicate 3 { extent := (800, 600) } }

/-- A render environment where every driver call succeeds and acquisition
returns image k without the suboptimal flag. -/
def envAllOk (k : Nat) : RenderEnv :=
  { waitOutcome := .ok
    acquireOutcome := .ok (k, false)
    resetOutcome := .ok
    recordOutcome := .ok
    submitOutcome := .ok
    presentOutcome := .ok false }

/-- A three-window hierarchy: window 1 records child 2, window 2 records
child 3; all three are live. -/
def wChain : Windows :=
  { children := [(1, [2]), (2, [3])]
    swapchain_targets := []
    windows := [(1, { size := (100, 100) }), (2, { size := (100, 100) }),
      (3, { size := (100, 100) })] }

/-- A one-window manager holding window 7 at extent 640 by 480 with a live
target, used by witnesses. -/
def wOne : Windows :=
  { children := []
    swapchain_targets := [(7, SwapchainTarget.new (640, 480) 3)]
    windows := [(7, { size := (640, 480) })] }

/-- A parent window 1 with two live leaf children 2 and 3 (no grandchildren),
used by witnesses. -/
def wPar : Windows :=
  { children := [(1, [2, 3])]
    swapchain_targets := []
    windows := [(1, { size := (100, 100) }), (2, { size := (100, 100) }),
      (3, { size := (100, 100) })] }

/-! ### Helper lemmas on the association-list maps -/

theorem lookupKey_eraseKey_self {α : Type} (l : List (Nat × α)) (k : Nat) :
    lookupKey (eraseKey l k) k = none := by
  induction l with
  | nil => rfl
  | cons q qs ih =>
    by_cases hq : q.1 = k
    · simpa [eraseKey, hq] using ih
    · simp [eraseKey, lookupKey, hq, ih]

theorem lookupKey_eraseKey_ne {α : Type} (l : List (Nat × α)) (k k' : Nat)
    (h : k' ≠ k) : lookupKey (eraseKey l k) k' = lookupKey l k' := by
  induction l with
  | nil => rfl
  | cons q qs ih =>
    by_cases hq : q.1 = k
    · have hq' : q.1 ≠ k' := by
        rw [hq]; exact fun hc => h hc.symm
      rw [show eraseKey (q :: qs) k = eraseKey qs k by
        simp [eraseKey, hq]]
      rw [show lookupKey (q :: qs) k' = lookupKey qs k' by
        simp only [lookupKey]; rw [if_neg hq']]
      exact ih
    · rw [show eraseKey (q :: qs) k = q :: eraseKey qs k by
        simp [eraseKey, hq]]
      by_cases hq2 : q.1 = k'
      · simp only [lookupKey, if_pos hq2]
      · simp only [lookupKey, if_neg hq2]
        exact ih

theorem lookupKey_eraseKey_none {α : Type} (l : List (Nat × α)) (k k' : Nat)
    (h : lookupKey l k' = none) : lookupKey (eraseKey l k) k' = none := by
  by_cases hk : k' = k
  · rw [hk]; exact lookupKey_eraseKey_self l k
  · rw [lookupKey_eraseKey_ne l k k' hk]; exact h

theorem lookupKey_eq_none_of_not_mem {α : Type} {l : List (Nat × α)} {k : Nat}
    (h : k ∉ l.map Prod.fst) : lookupKey l k = none := by
  induction l with
  | nil => rfl
  | cons q qs ih =>
    simp only [List.map_cons, List.mem_cons] at h
    push_neg at h
    have hq : q.1 ≠ k := fun hc => h.1 hc.symm
    simp [lookupKey, hq, ih h.2]

theorem eraseKey_of_lookupKey_none {α : Type} {l : List (Nat × α)} {k : Nat}
    (h : lookupKey l k = none) : eraseKey l k = l := by
  induction l with
  | nil => rfl
  | cons q qs ih =>
    by_cases hq : q.1 = k
    · simp [lookupKey, hq] at h
    · simp only [lookupKey, if_neg hq] at h
      simp [eraseKey, hq, ih h]

theorem eraseKey_length_of_some {α : Type} {l : List (Nat × α)} {k : Nat}
    {v : α} (hn : keysNodup l) (h : lookupKey l k = some v) :
    (eraseKey l k).length + 1 = l.length := by
  induction l with
  | nil => simp [lookupKey] at h
  | cons q qs ih =>
    simp only [keysNodup, List.map_cons, List.nodup_cons] at hn
    by_cases hq : q.1 = k
    · have hnone : lookupKey qs k = none := by
        apply lookupKey_eq_none_of_not_mem
        rw [← hq]; exact hn.1
      simp [eraseKey, hq, eraseKey_of_lookupKey_none hnone]
    · simp only [lookupKey, if_neg hq] at h
      simp only [eraseKey, if_neg hq, List.length_cons]
      have := ih hn.2 h
      omega

theorem eraseKey_sublist {α : Type} (l : List (Nat × α)) (k : Nat) :
    List.Sublist (eraseKey l k) l := by
  induction l with
  | nil => simp [eraseKey]
  | cons q qs ih =>
    by_cases hq : q.1 = k
    · simp only [eraseKey, if_pos hq]
      exact List.Sublist.cons q ih
    · simp only [eraseKey, if_neg hq]
      exact List.Sublist.cons₂ q ih

theorem keysNodup_eraseKey {α : Type} {l : List (Nat × α)} (k : Nat)
    (hn : keysNodup l) : keysNodup (eraseKey l k) := by
  have hs : List.Sublist ((eraseKey l k).map Prod.fst) (l.map Prod.fst) :=
    List.Sublist.map Prod.fst (eraseKey_sublist l k)
  exact List.Nodup.sublist hs hn

theorem mem_eraseKey {α : Type} {l : List (Nat × α)} {k : Nat}
    {p : Nat × α} (h : p ∈ eraseKey l k) : p ∈ l ∧ p.1 ≠ k := by
  induction l with
  | nil => simp [eraseKey] at h
  | cons q qs ih =>
    by_cases hq : q.1 = k
    · simp only [eraseKey, if_pos hq] at h
      exact ⟨List.mem_cons_of_mem _ (ih h).1, (ih h).2⟩
    · simp only [eraseKey, if_neg hq, List.mem_cons] at h
      rcases h with h | h
      · exact ⟨h ▸ List.mem_cons_self q qs, h ▸ hq⟩
      · exact ⟨List.mem_cons_of_mem _ (ih h).1, (ih h).2⟩

theorem lookupKey_isSome_of_mem {α : Type} {l : List (Nat × α)}
    {p : Nat × α} (h : p ∈ l) : (lookupKey l p.1).isSome = true := by
  induction l with
  | nil => simp at h
  | cons q qs ih =>
    rcases List.mem_cons.1 h with h | h
    · simp [lookupKey, h]
    · by_cases hq : q.1 = p.1
      · simp [lookupKey, hq]
      · simp [lookupKey, hq, ih h]

theorem lookupKey_insertKey_self {α : Type} (l : List (Nat × α)) (k : Nat)
    (v : α) : lookupKey (insertKey l k v) k = some v := by
  simp [insertKey, lookupKey]

theorem lookupKey_insertKey_ne {α : Type} (l : List (Nat × α)) (k k' : Nat)
    (v : α) (h : k' ≠ k) :
    lookupKey (insertKey l k v) k' = lookupKey l k' := by
  simp only [insertKey, lookupKey]
  rw [if_neg (fun hc => h hc.symm)]
  exact lookupKey_eraseKey_ne l k k' h

theorem mem_insertKey {α : Type} {l : List (Nat × α)} {k : Nat} {v : α}
    {p : Nat × α} (h : p ∈ insertKey l k v) :
    p = (k, v) ∨ (p ∈ l ∧ p.1 ≠ k) := by
  simp only [insertKey, List.mem_cons] at h
  rcases h with h | h
  · exact Or.inl h
  · exact Or.inr (mem_eraseKey h)

theorem listGetD_replicate {α : Type} (n i : Nat) (a d : α) (h : i < n) :
    listGetD (List.replicate n a) i d = a := by
  induction n generalizing i with
  | zero => omega
  | succ m ih =>
    cases i with
    | zero => rfl
    | succ j =>
      have hstep : listGetD (List.replicate (m + 1) a) (j + 1) d
          = listGetD (List.replicate m a) j d := rfl
      rw [hstep]
      exact ih j (by omega)

/-! ### Helper lemmas on tryAcquireImage -/

theorem tryAcquire_zero (st : SwapchainTarget) (ws : Nat × Nat)
    (acq : AcquireOutcome) (h : ws.1 = 0 ∨ ws.2 = 0) :
    tryAcquireImage st ws acq = .ok (st, none) := by
  unfold tryAcquireImage
  rw [if_pos h]

theorem tryAcquire_outOfDate (st : SwapchainTarget) (ws : Nat × Nat)
    (h1 : ws.1 ≠ 0) (h2 : ws.2 ≠ 0) :
    tryAcquireImage st ws .outOfDate =
      .ok ({ resolveDirty st ws with recreate_swapchain := true }, none) := by
  unfold tryAcquireImage
  rw [if_neg (fun hc => hc.elim h1 h2)]

theorem tryAcquire_suboptimal (st : SwapchainTarget) (ws : Nat × Nat)
    (idx : Nat) (h1 : ws.1 ≠ 0) (h2 : ws.2 ≠ 0) :
    tryAcquireImage st ws (.ok idx true) =
      .ok ({ resolveDirty st ws with recreate_swapchain := true },
        some { image := listGetD (resolveDirty st ws).swapchain_images idx
                 { extent := (0, 0) }
               image_index := idx }) := by
  unfold tryAcquireImage
  rw [if_neg (fun hc => hc.elim h1 h2)]
  rfl

theorem tryAcquire_acquired (st : SwapchainTarget) (ws : Nat × Nat) (idx : Nat)
    (h1 : ws.1 ≠ 0) (h2 : ws.2 ≠ 0) :
    tryAcquireImage st ws (.ok idx false) =
      .ok (resolveDirty st ws,
        some { image := listGetD (resolveDirty st ws).swapchain_images idx
                 { extent := (0, 0) }
               image_index := idx }) := by
  unfold tryAcquireImage
  rw [if_neg (fun hc => hc.elim h1 h2)]
  rfl

theorem resolveDirty_of_dirty (st : SwapchainTarget) (ws : Nat × Nat)
    (hd : st.recreate_swapchain = true) :
    resolveDirty st ws =
      { recreate_swapchain := false
        swapchain := { imageExtent := ws }
        swapchain_images :=
          List.replicate st.swapchain_images.length { extent := ws } } := by
  simp [resolveDirty, hd]

theorem tryAcquire_dirty_ok (st : SwapchainTarget) (ws : Nat × Nat) (idx : Nat)
    (hd : st.recreate_swapchain = true) (h1 : ws.1 ≠ 0) (h2 : ws.2 ≠ 0)
    (hidx : idx < st.swapchain_images.length) :
    tryAcquireImage st ws (.ok idx false) =
      .ok ({ recreate_swapchain := false
             swapchain := { imageExtent := ws }
             swapchain_images :=
               List.replicate st.swapchain_images.length { extent := ws } },
        some { image := { extent := ws }, image_index := idx }) := by
  rw [tryAcquire_acquired st ws idx h1 h2, resolveDirty_of_dirty st ws hd]
  rw [listGetD_replicate _ _ _ _ hidx]

/-! ### Helper lemmas on coveredBy and the Windows operations -/

theorem coveredBy_eraseKey {targets : List (Nat × SwapchainTarget)}
    {windows : List (Nat × WinitWindow)} (id : Nat)
    (h : coveredBy targets windows = true) :
    coveredBy (eraseKey targets id) (eraseKey windows id) = true := by
  simp only [coveredBy, List.all_eq_true] at h ⊢
  intro p hp
  rcases mem_eraseKey hp with ⟨hpl, hpk⟩
  rw [lookupKey_eraseKey_ne _ _ _ hpk]
  exact h p hpl

theorem removeWork_nil (w : Windows) : Windows.removeWork w [] = (w, []) := by
  simp [Windows.removeWork]

theorem removeWork_cons_none (w : Windows) (id : Nat) (rest : List Nat)
    (h : lookupKey w.children id = none) :
    Windows.removeWork w (id :: rest) =
      ((Windows.removeWork (eraseBoth w id) rest).1,
       id :: (Windows.removeWork (eraseBoth w id) rest).2) := by
  simp only [Windows.removeWork]
  split
  next heq => rfl
  next cs heq => rw [h] at heq; cases heq

theorem removeWork_cons_some (w : Windows) (id : Nat) (rest cs : List Nat)
    (h : lookupKey w.children id = some cs) :
    Windows.removeWork w (id :: rest) =
      ((Windows.removeWork (eraseAll w id) (cs ++ rest)).1,
       id :: (Windows.removeWork (eraseAll w id) (cs ++ rest)).2) := by
  simp only [Windows.removeWork]
  split
  next heq => rw [h] at heq; cases heq
  next cs2 heq =>
    rw [h] at heq
    injection heq with heq
    subst heq
    rfl

theorem removeWork_covered (w : Windows) (ids : List Nat)
    (h : targetsCovered w = true) :
    targetsCovered (Windows.removeWork w ids).1 = true := by
  induction w, ids using Windows.removeWork.induct with
  | case1 w =>
    rw [removeWork_nil]
    exact h
  | case2 w id rest w1 hnone ih =>
    rw [removeWork_cons_none w id rest hnone]
    exact ih (coveredBy_eraseKey id h)
  | case3 w id rest w1 cs hsome w2 ih =>
    rw [removeWork_cons_some w id rest cs hsome]
    exact ih (coveredBy_eraseKey id h)

theorem removeWork_clean (cs : List Nat) : ∀ (w : Windows),
    keysNodup w.windows → cs.Nodup →
    (∀ c ∈ cs, (lookupKey w.windows c).isSome = true ∧
      lookupKey w.children c = none) →
    (Windows.removeWork w cs).1.windows.length + cs.length = w.windows.length ∧
    (Windows.removeWork w cs).2 = cs ∧
    (∀ x, lookupKey w.windows x = none →
      lookupKey (Windows.removeWork w cs).1.windows x = none) ∧
    (∀ c ∈ cs, lookupKey (Windows.removeWork w cs).1.windows c = none) := by
  induction cs with
  | nil =>
    intro w _ _ _
    simp [Windows.removeWork]
  | cons c rest ih =>
    intro w hnodup hcs hlive
    obtain ⟨hcl, hcch⟩ := hlive c (List.mem_cons_self c rest)
    obtain ⟨hcr, hrest⟩ := List.nodup_cons.1 hcs
    rw [removeWork_cons_none w c rest hcch]
    have hn1 : keysNodup (eraseKey w.windows c) := keysNodup_eraseKey c hnodup
    have hlive1 : ∀ c' ∈ rest,
        (lookupKey (eraseKey w.windows c) c').isSome = true ∧
        lookupKey w.children c' = none := by
      intro c' hc'
      have hne : c' ≠ c := fun hc => hcr (hc ▸ hc')
      rw [lookupKey_eraseKey_ne _ _ _ hne]
      exact hlive c' (List.mem_cons_of_mem _ hc')
    have hbase := ih (eraseBoth w c) hn1 hrest hlive1
    obtain ⟨hlen, htr, hpre, hrem⟩ := hbase
    obtain ⟨v, hv⟩ := Option.isSome_iff_exists.1 hcl
    have herase : (eraseKey w.windows c).length + 1 = w.windows.length :=
      eraseKey_length_of_some hnodup hv
    have hfields : (eraseBoth w c).windows = eraseKey w.windows c := rfl
    rw [hfields] at hlen
    refine ⟨?_, ?_, ?_, ?_⟩
    · simp only [List.length_cons]
      omega
    · simp [htr]
    · intro x hx
      exact hpre x (lookupKey_eraseKey_none _ _ _ hx)
    · intro c' hc'
      rcases List.mem_cons.1 hc' with hc' | hc'
      · subst hc'
        exact hpre c' (lookupKey_eraseKey_self _ _)
      · exact hrem c' hc'

/-! ### Helper lemmas on Windows.resume -/

theorem lookupKey_resume_fold_skip (n : Nat) (ws : List (Nat × WinitWindow)) :
    ∀ (acc : List (Nat × SwapchainTarget)) (id : Nat),
    id ∉ ws.map Prod.fst →
    lookupKey (ws.foldl
      (fun ts p => insertKey ts p.1 (SwapchainTarget.new p.2.size n)) acc) id
      = lookupKey acc id := by
  induction ws with
  | nil => intro acc id _; rfl
  | cons q qs ih =>
    intro acc id hid
    simp only [List.map_cons, List.mem_cons] at hid
    push_neg at hid
    simp only [List.foldl_cons]
    rw [ih _ id hid.2]
    exact lookupKey_insertKey_ne _ _ _ _ hid.1

theorem lookupKey_resume_fold (n : Nat) (ws : List (Nat × WinitWindow)) :
    ∀ (acc : List (Nat × SwapchainTarget)) (id : Nat) (win : WinitWindow),
    keysNodup ws → lookupKey ws id = some win →
    lookupKey (ws.foldl
      (fun ts p => insertKey ts p.1 (SwapchainTarget.new p.2.size n)) acc) id
      = some (SwapchainTarget.new win.size n) := by
  induction ws with
  | nil => intro acc id win _ h; simp [lookupKey] at h
  | cons q qs ih =>
    intro acc id win hn h
    simp only [keysNodup, List.map_cons, List.nodup_cons] at hn
    simp only [List.foldl_cons]
    by_cases hq : q.1 = id
    · subst hq
      simp only [lookupKey, if_pos rfl] at h
      injection h with h
      subst h
      rw [lookupKey_resume_fold_skip n qs _ q.1 hn.1]
      exact lookupKey_insertKey_self _ _ _
    · simp only [lookupKey, if_neg hq] at h
      exact ih _ id win hn.2 h

theorem coveredBy_resume_fold (n : Nat) (W : List (Nat × WinitWindow))
    (ws : List (Nat × WinitWindow)) :
    ∀ (acc : List (Nat × SwapchainTarget)),
    (∀ p ∈ ws, (lookupKey W p.1).isSome = true) → coveredBy acc W = true →
    coveredBy (ws.foldl
      (fun ts p => insertKey ts p.1 (SwapchainTarget.new p.2.size n)) acc) W
      = true := by
  induction ws with
  | nil => intro acc _ hacc; exact hacc
  | cons q qs ih =>
    intro acc hin hacc
    simp only [List.foldl_cons]
    apply ih
    · intro p hp
      exact hin p (List.mem_cons_of_mem _ hp)
    · simp only [coveredBy, List.all_eq_true] at hacc ⊢
      intro p hp
      rcases mem_insertKey hp with h | ⟨hpl, _⟩
      · rw [h]
        exact hin q (List.mem_cons_self q qs)
      · exact hacc p hpl

/-! ### Claim C1 -/

/-- C1 fails on the code: with the dirty flag set, nonzero extent 400 by 300
and a successful acquisition of image 0, try_acquire_image rebuilds the
swapchain and still returns an acquired image in the same call, so the claimed
no-image rebuild pass does not exist. -/
theorem c1_counterexample : ¬ claimC1 := by
  intro h
  have hc := h stDirty (400, 300) (.ok 0 false)
    { recreate_swapchain := false
      swapchain := { imageExtent := (400, 300) }
      swapchain_images := List.replicate 3 { extent := (400, 300) } }
    (some { image := { extent := (400, 300) }, image_index := 0 })
    rfl (by decide) (by decide) (by decide)
  exact Option.noConfusion hc

/-- C1 amended: when the swapchain is dirty and the window size is nonzero, a
try_acquire call with a successful (not suboptimal) acquisition rebuilds the
swapchain at the current window size and, in that same call, returns a valid
acquired image already at the new size; rendering is not deferred to the next
acquire. -/
theorem c1_amended (st : SwapchainTarget) (ws : Nat × Nat) (idx : Nat)
    (hd : st.recreate_swapchain = true) (h1 : ws.1 ≠ 0) (h2 : ws.2 ≠ 0)
    (hidx : idx < st.swapchain_images.length) :
    tryAcquireImage st ws (.ok idx false) =
      .ok ({ recreate_swapchain := false
             swapchain := { imageExtent := ws }
             swapchain_images :=
               List.replicate st.swapchain_images.length { extent := ws } },
        some { image := { extent := ws }, image_index := idx }) :=
  tryAcquire_dirty_ok st ws idx hd h1 h2 hidx

/-- C1 amended, witnessed at the spec scenario: dirty 800 by 600 target,
resize to 400 by 300, image 0 acquired. -/
theorem c1_amended_witness :
    tryAcquireImage stDirty (400, 300) (.ok 0 false) =
      .ok ({ recreate_swapchain := false
             swapchain := { imageExtent := (400, 300) }
             swapchain_images :=
               List.replicate stDirty.swapchain_images.length
                 { extent := (400, 300) } },
        some { image := { extent := (400, 300) }, image_index := 0 }) :=
  c1_amended stDirty (400, 300) 0 rfl (by decide) (by decide) (by decide)

/-! ### Claim C5 -/

/-- C5: with a nonzero window size, an out-of-date acquisition marks the
swapchain dirty and returns no image as an Ok result (no error surfaced),
while a suboptimal acquisition marks the swapchain dirty for the next frame
but still returns the acquired image of the current frame. -/
theorem c5_transient_acquire (st : SwapchainTarget) (ws : Nat × Nat)
    (idx : Nat) (h1 : ws.1 ≠ 0) (h2 : ws.2 ≠ 0) :
    tryAcquireImage st ws .outOfDate =
      .ok ({ resolveDirty st ws with recreate_swapchain := true }, none) ∧
    tryAcquireImage st ws (.ok idx true) =
      .ok ({ resolveDirty st ws with recreate_swapchain := true },
        some { image := listGetD (resolveDirty st ws).swapchain_images idx
                 { extent := (0, 0) }
               image_index := idx }) :=
  ⟨tryAcquire_outOfDate st ws h1 h2, tryAcquire_suboptimal st ws idx h1 h2⟩

/-- C5 witnessed on a fresh 800 by 600 target with image index 1. -/
theorem c5_witness :
    tryAcquireImage (SwapchainTarget.new (800, 600) 3) (800, 600) .outOfDate =
      .ok ({ resolveDirty (SwapchainTarget.new (800, 600) 3) (800, 600) with
              recreate_swapchain := true }, none) ∧
    tryAcquireImage (SwapchainTarget.new (800, 600) 3) (800, 600) (.ok 1 true) =
      .ok ({ resolveDirty (SwapchainTarget.new (800, 600) 3) (800, 600) with
              recreate_swapchain := true },
        some { image := listGetD
                 (resolveDirty (SwapchainTarget.new (800, 600) 3)
                   (800, 600)).swapchain_images 1 { extent := (0, 0) }
               image_index := 1 }) :=
  c5_transient_acquire (SwapchainTarget.new (800, 600) 3) (800, 600) 1
    (by decide) (by decide)

/-! ### Claim C6 -/

/-- C6: when the flush of the present future reports the recoverable
suboptimal/out-of-date presentation signal (surfaced by the library as the
out-of-date error the code matches on), present marks the window dirty and
still returns Ok true; a later try_acquire at any nonzero size then rebuilds
the swapchain in that pass without any resize event, returning an image at
the new size. -/
theorem c6_present_transient (st : SwapchainTarget) (ws : Nat × Nat)
    (idx : Nat) (h1 : ws.1 ≠ 0) (h2 : ws.2 ≠ 0)
    (hidx : idx < st.swapchain_images.length) :
    SwapchainTarget.present st .outOfDate =
      .ok ({ st with recreate_swapchain := true }, true) ∧
    tryAcquireImage { st with recreate_swapchain := true } ws (.ok idx false) =
      .ok ({ recreate_swapchain := false
             swapchain := { imageExtent := ws }
             swapchain_images :=
               List.replicate st.swapchain_images.length { extent := ws } },
        some { image := { extent := ws }, image_index := idx }) := by
  constructor
  · rfl
  · exact tryAcquire_dirty_ok { st with recreate_swapchain := true } ws idx
      rfl h1 h2 hidx

/-- C6 witnessed on a fresh 800 by 600 target redrawn at the same size. -/
theorem c6_witness :
    SwapchainTarget.present (SwapchainTarget.new (800, 600) 3) .outOfDate =
      .ok ({ SwapchainTarget.new (800, 600) 3 with recreate_swapchain := true },
        true) ∧
    tryAcquireImage { SwapchainTarget.new (800, 600) 3 with
        recreate_swapchain := true } (800, 600) (.ok 0 false) =
      .ok ({ recreate_swapchain := false
             swapchain := { imageExtent := (800, 600) }
             swapchain_images :=
               List.replicate
                 (SwapchainTarget.new (800, 600) 3).swapchain_images.length
                 { extent := (800, 600) } },
        some { image := { extent := (800, 600) }, image_index := 0 }) :=
  c6_present_transient (SwapchainTarget.new (800, 600) 3) (800, 600) 0
    (by decide) (by decide) (by decide)

/-! ### Claim C8 -/

/-- C8: with a zero width or height, try_acquire_image returns Ok with no
image, leaves the state untouched, and does so for every possible acquisition
outcome, i.e. without attempting or depending on acquisition at all. -/
theorem c8_zero_extent (st : SwapchainTarget) (ws : Nat × Nat)
    (acq : AcquireOutcome) (h : ws.1 = 0 ∨ ws.2 = 0) :
    tryAcquireImage st ws acq = .ok (st, none) :=
  tryAcquire_zero st ws acq h

/-- C8 witnessed on a dirty target minimized to width 0. -/
theorem c8_witness :
    tryAcquireImage stDirty (0, 300) (.ok 5 true) = .ok (stDirty, none) :=
  c8_zero_extent stDirty (0, 300) (.ok 5 true) (by decide)

/-! ### Claim C2 -/

/-- C2 fails on the code: over the two-call schedule in which slot 0 and then
slot 1 both acquire image 0, the second call never waits on the fence that the
first call recorded at its submit for image 0 (it waits only on its own slot
fence), so no per-image fence-table discipline is enforced by render. -/
theorem c2_counterexample : ¬ claimC2 := fun h =>
  absurd (h { frame_index := 0 } [envAllOk 0, envAllOk 0]) (by decide)

/-- C2 amended: render performs exactly one fence wait per call, on the
current frame slot's fence, regardless of which image is acquired and of how
the call ends; when a submit is issued it signals that same slot fence. No
wait is keyed on the acquired image index. -/
theorem c2_amended (r : AshRenderer) (env : RenderEnv) :
    traceWaits (r.render env).2.1 = [r.frame_index] ∧
    (∀ f, traceSubmitFence (r.render env).2.1 = some f →
      f = r.frame_index) := by
  rcases env with ⟨wo, ao, ro, co, so, po⟩
  rcases wo with _ | e1 <;> rcases ao with e2 | ⟨k, sub⟩ <;>
    rcases ro with _ | e3 <;> rcases co with _ | e4 <;>
    rcases so with _ | e5 <;> rcases po with e6 | sub2 <;>
    simp [AshRenderer.render, traceWaits, traceSubmitFence,
      List.filterMap_cons, List.findSome?_cons]

/-- C2 amended, witnessed on a fully successful render from slot 0. -/
theorem c2_amended_witness :
    traceWaits (AshRenderer.render { frame_index := 0 } (envAllOk 0)).2.1
      = [0] :=
  (c2_amended { frame_index := 0 } (envAllOk 0)).1

/-! ### Claim C7 -/

/-- C7: the frame slot index advances to (index + 1) mod 2 exactly when render
returns Ok, which happens only after a successful present; when any step fails
the returned state carries the unchanged index. -/
theorem c7_slot_advance (r : AshRenderer) (env : RenderEnv) :
    ((r.render env).2.2 = .ok () →
      (r.render env).1.frame_index = (r.frame_index + 1) % 2) ∧
    (∀ e, (r.render env).2.2 = .error e →
      (r.render env).1.frame_index = r.frame_index) := by
  rcases env with ⟨wo, ao, ro, co, so, po⟩
  rcases wo with _ | e1 <;> rcases ao with e2 | ⟨k, sub⟩ <;>
    rcases ro with _ | e3 <;> rcases co with _ | e4 <;>
    rcases so with _ | e5 <;> rcases po with e6 | sub2 <;>
    simp [AshRenderer.render]

/-- C7 witnessed on a fully successful render from slot 0. -/
theorem c7_witness :
    (AshRenderer.render { frame_index := 0 } (envAllOk 0)).1.frame_index
      = (0 + 1) % 2 :=
  (c7_slot_advance { frame_index := 0 } (envAllOk 0)).1 rfl

/-! ### Claim C3 -/

/-- C3 fails on the code: in the chain 1 holding child 2, which itself holds
live child 3, remove(1) erases all three windows (the grandchild too), so the
count drops by 3 and not by the claimed number of direct children plus one;
moreover the erasure trace is 1, 2, 3, so the parent is erased first, not
after its children. -/
theorem c3_counterexample : ¬ claimC3 := by
  intro h
  have hc := h wChain 1 [2] (by decide) (by decide) (by decide)
  have h1 : (wChain.remove 1).windows.length = 0 := by
    simp [Windows.remove, Windows.removeWork, wChain, lookupKey, eraseKey]
  rw [h1] at hc
  have h3 : wChain.windows.length = 3 := by decide
  have h2 : (0 : Nat) + ([2].length + 1) = 3 := h3 ▸ hc.1
  simp at h2

/-- C3 amended: remove(p) erases p itself first and then its recorded
children in order (trace p followed by the children); when the children are
pairwise distinct live windows different from p with no recorded children of
their own, the live window count drops by exactly their number plus one, and
p and every child are gone from the live map. -/
theorem c3_amended (w : Windows) (p : Nat) (cs : List Nat)
    (hnodup : keysNodup w.windows)
    (hch : lookupKey w.children p = some cs)
    (hp : (lookupKey w.windows p).isSome = true)
    (hcs : cs.Nodup)
    (hlive : ∀ c ∈ cs, (lookupKey w.windows c).isSome = true ∧ c ≠ p ∧
      lookupKey w.children c = none) :
    (w.remove p).windows.length + (cs.length + 1) = w.windows.length ∧
    w.removeTrace p = p :: cs ∧
    lookupKey (w.remove p).windows p = none ∧
    (∀ c ∈ cs, lookupKey (w.remove p).windows c = none) := by
  have hs1 : w.remove p = (Windows.removeWork (eraseAll w p) cs).1 := by
    unfold Windows.remove
    rw [removeWork_cons_some w p [] cs hch, List.append_nil]
  have hs2 : w.removeTrace p
      = p :: (Windows.removeWork (eraseAll w p) cs).2 := by
    unfold Windows.removeTrace
    rw [removeWork_cons_some w p [] cs hch, List.append_nil]
  have h1 : keysNodup (eraseAll w p).windows := keysNodup_eraseKey p hnodup
  have h2 : ∀ c ∈ cs, (lookupKey (eraseAll w p).windows c).isSome = true ∧
      lookupKey (eraseAll w p).children c = none := by
    intro c hc
    obtain ⟨hl, hne, hcc⟩ := hlive c hc
    constructor
    · show (lookupKey (eraseKey w.windows p) c).isSome = true
      rw [lookupKey_eraseKey_ne _ _ _ hne]
      exact hl
    · show lookupKey (eraseKey w.children p) c = none
      exact lookupKey_eraseKey_none _ _ _ hcc
  obtain ⟨hlen, htr, hpre, hrem⟩ := removeWork_clean cs (eraseAll w p) h1 hcs h2
  obtain ⟨v, hv⟩ := Option.isSome_iff_exists.1 hp
  have herase : (eraseKey w.windows p).length + 1 = w.windows.length :=
    eraseKey_length_of_some hnodup hv
  have hfields : (eraseAll w p).windows = eraseKey w.windows p := rfl
  rw [hfields] at hlen
  refine ⟨?_, ?_, ?_, ?_⟩
  · rw [hs1]
    omega
  · rw [hs2, htr]
  · rw [hs1]
    apply hpre
    rw [hfields]
    exact lookupKey_eraseKey_self _ _
  · intro c hc
    rw [hs1]
    exact hrem c hc

/-- C3 amended, witnessed on parent 1 with live leaf children 2 and 3. -/
theorem c3_amended_witness :
    (wPar.remove 1).windows.length + ([2, 3].length + 1)
      = wPar.windows.length ∧
    wPar.removeTrace 1 = 1 :: [2, 3] :=
  ⟨(c3_amended wPar 1 [2, 3] (by decide) (by decide) (by decide) (by decide)
      (by decide)).1,
   (c3_amended wPar 1 [2, 3] (by decide) (by decide) (by decide) (by decide)
      (by decide)).2.1⟩

/-! ### Claim C4 -/

/-- C4: can_close returns false exactly when some recorded child of the id is
still present in the live windows map; the recorded list is checked against
the live map on every query, so a window whose recorded children were all
removed may close. -/
theorem c4_canClose_iff (w : Windows) (id : Nat) :
    w.canClose id = false ↔
      ∃ c ∈ w.recordedChildren id, (lookupKey w.windows c).isSome = true := by
  unfold Windows.canClose Windows.recordedChildren
  cases h : lookupKey w.children id with
  | none => simp
  | some cs => simp [List.any_eq_true]

/-! ### Claim C9 -/

/-- C9: after suspend followed by resume, every live window id holds the
freshly built swapchain target for its current inner size, that target is not
dirty, and a try_acquire at that size with a successful acquisition of image 0
returns a valid image at that size. -/
theorem c9_suspend_resume (w : Windows) (n id : Nat) (win : WinitWindow)
    (hnodup : keysNodup w.windows)
    (hid : lookupKey w.windows id = some win)
    (h1 : win.size.1 ≠ 0) (h2 : win.size.2 ≠ 0) (hn : 0 < n) :
    lookupKey ((w.suspend).resume n).swapchain_targets id
      = some (SwapchainTarget.new win.size n) ∧
    (SwapchainTarget.new win.size n).recreate_swapchain = false ∧
    tryAcquireImage (SwapchainTarget.new win.size n) win.size (.ok 0 false) =
      .ok (SwapchainTarget.new win.size n,
        some { image := { extent := win.size }, image_index := 0 }) := by
  refine ⟨?_, rfl, ?_⟩
  · exact lookupKey_resume_fold n w.windows [] id win hnodup hid
  · rw [tryAcquire_acquired (SwapchainTarget.new win.size n) win.size 0 h1 h2]
    have hres : resolveDirty (SwapchainTarget.new win.size n) win.size
        = SwapchainTarget.new win.size n := by
      simp [resolveDirty, SwapchainTarget.new]
    rw [hres]
    rw [show (SwapchainTarget.new win.size n).swapchain_images
        = List.replicate n { extent := win.size } from rfl]
    rw [listGetD_replicate n 0 _ _ hn]

/-- C9 witnessed on the one-window manager. -/
theorem c9_witness :
    lookupKey ((wOne.suspend).resume 3).swapchain_targets 7
      = some (SwapchainTarget.new (640, 480) 3) ∧
    (SwapchainTarget.new (640, 480) 3).recreate_swapchain = false ∧
    tryAcquireImage (SwapchainTarget.new (640, 480) 3) (640, 480)
        (.ok 0 false) =
      .ok (SwapchainTarget.new (640, 480) 3,
        some { image := { extent := (640, 480) }, image_index := 0 }) :=
  c9_suspend_resume wOne 3 7 { size := (640, 480) } (by decide) (by decide)
    (by decide) (by decide) (by decide)

/-! ### Claim C10 -/

/-- C10: every public Windows operation preserves the invariant that each id
holding a swapchain target is present in the live windows map. -/
theorem c10_targets_subset (w : Windows) (hw : targetsCovered w = true)
    (id pid cid n : Nat) (win : WinitWindow) :
    targetsCovered (w.add id win n) = true ∧
    targetsCovered (w.remove id) = true ∧
    targetsCovered (w.addChild pid cid) = true ∧
    targetsCovered (w.removeChild pid cid) = true ∧
    targetsCovered w.suspend = true ∧
    targetsCovered (w.resume n) = true := by
  have hw' : ∀ p ∈ w.swapchain_targets,
      (lookupKey w.windows p.1).isSome = true := by
    simpa only [targetsCovered, coveredBy, List.all_eq_true] using hw
  refine ⟨?_, ?_, ?_, ?_, ?_, ?_⟩
  · simp only [Windows.add, targetsCovered, coveredBy, List.all_eq_true]
    intro p hp
    rcases mem_insertKey hp with h | ⟨hpl, hpk⟩
    · rw [h]
      show (lookupKey (insertKey w.windows id win) id).isSome = true
      rw [lookupKey_insertKey_self]
      rfl
    · rw [lookupKey_insertKey_ne _ _ _ _ hpk]
      exact hw' p hpl
  · exact removeWork_covered w [id] hw
  · unfold Windows.addChild
    cases lookupKey w.children pid <;> exact hw
  · unfold Windows.removeChild
    cases lookupKey w.children pid with
    | none => exact hw
    | some cs =>
      dsimp only
      split <;> exact hw
  · rfl
  · unfold Windows.resume
    exact coveredBy_resume_fold n w.windows w.windows w.swapchain_targets
      (fun p hp => lookupKey_isSome_of_mem hp) hw

/-- C10 witnessed on the one-window manager with fresh ids. -/
theorem c10_witness :
    targetsCovered (wOne.add 9 { size := (5, 5) } 2) = true ∧
    targetsCovered (wOne.remove 9) = true ∧
    targetsCovered (wOne.addChild 7 9) = true ∧
    targetsCovered (wOne.removeChild 7 9) = true ∧
    targetsCovered wOne.suspend = true ∧
    targetsCovered (wOne.resume 2) = true :=
  c10_targets_subset wOne (by decide) 9 7 9 2 { size := (5, 5) }

end Engine
